import Mathlib

/-!
# Verification of the agent-inbox configuration synchronization engine

A shallow embedding, in Lean 4, of the configuration synchronization core of
the agent-inbox repository:

* `src/hooks/use-persistent-config.tsx` — local cache read/write, the
  `updateConfig` merge, the debounced save effect and the periodic sync;
* `src/lib/inbox-settings-utils.ts` — the layered setting resolver
  (`getInboxSetting`, `setInboxSetting`, `clearInboxSetting`);
* `src/hooks/use-draft-storage.tsx` — per-thread draft load/save/discard;
* `src/lib/config-storage.ts` — server-side file store (`loadConfig`,
  `saveConfig`, `deleteConfig`, `getEnvDefaultConfig`, slug generation);
* `src/app/api/config/route.ts` — the GET/POST/DELETE configuration endpoint.

JavaScript objects used as string-keyed dictionaries are embedded as
association lists (`JsObj`); a JavaScript property whose value may be
`undefined` is embedded as an `Option`.  Timers and interleavings are embedded
as explicit event traces with natural-number timestamps.
-/

/-- A JavaScript object used as a string-keyed dictionary: an association
list of key/value pairs, looked up first-match. -/
abbrev JsObj (α : Type) : Type := List (String × α)

/-- Property read `m[k]`: the value at the first occurrence of key `k`,
`none` when the key is absent. -/
def jsLookup {α : Type} : JsObj α → String → Option α
  | [], _ => none
  | (k, v) :: rest, key => if k = key then some v else jsLookup rest key

/-- Property write `{...m, [k]: v}` / `m[k] = v`: the key keeps its position
and its value is replaced when present; the pair is appended otherwise. -/
def jsInsert {α : Type} : JsObj α → String → α → JsObj α
  | [], key, v => [(key, v)]
  | (k0, v0) :: rest, key, v =>
    if k0 = key then (key, v) :: rest else (k0, v0) :: jsInsert rest key v

/-- Property removal `delete m[k]` / `const {[k]: _, ...rest} = m`. -/
def jsErase {α : Type} : JsObj α → String → JsObj α
  | [], _ => []
  | (k0, v0) :: rest, key =>
    if k0 = key then jsErase rest key else (k0, v0) :: jsErase rest key

/-- JavaScript string fallback `s || d`: both `undefined` and the empty
string are falsy. -/
def jsOr (s : Option String) (d : String) : String :=
  match s with
  | some v => if v = "" then d else v
  | none => d

/-- An inbox record (`AgentInbox` in `src/components/agent-inbox/types.ts`):
a stable `id`, a display `name`, an optional URL `slug`, connection
parameters, the `selected` flag and a creation timestamp. -/
structure AgentInbox where
  id : String
  name : String := ""
  slug : Option String := none
  deploymentUrl : String := ""
  graphId : String := ""
  selected : Bool := false
  createdAt : String := ""
deriving DecidableEq, Repr

/-- Notification preferences (`preferences.notifications`, Phase 4A). -/
structure NotifPrefs where
  enabled : Bool
  sound : Bool
  desktop : Bool
  emailOnInterrupt : Option Bool := none
deriving DecidableEq, Repr

/-- The `preferences` group of the configuration document.  The per-inbox
setting records (`inboxDefaults`, `inboxSettings`) are string-keyed records
accessed generically (`as any` in the source), so they are embedded as
`JsObj` dictionaries over a setting-value type `V`; an entry carrying
`none` models a key that is present but explicitly `undefined`. -/
structure Preferences (V : Type) where
  theme : Option String := none
  defaultInbox : Option String := none
  lastSelectedFilter : Option String := none
  inboxOrder : Option (List String) := none
  inboxDefaults : Option (JsObj (Option V)) := none
  inboxSettings : Option (JsObj (JsObj (Option V))) := none
  notifications : Option NotifPrefs := none
deriving DecidableEq, Repr

/-- An empty preferences object `{}`. -/
def emptyPrefs {V : Type} : Preferences V := {}

/-- A saved draft entry `{content, lastSaved}` under `drafts[threadId]`. -/
structure Draft where
  content : String
  lastSaved : String
deriving DecidableEq, Repr

/-- The configuration document (`PersistentConfig` in
`use-persistent-config.tsx`; the same shape as `StoredConfiguration` in
`config-storage.ts`, whose `version`/`lastUpdated` are likewise absent
until a store assigns them). -/
structure PersistentConfig (V : Type) where
  version : Option String := none
  lastUpdated : Option String := none
  langsmithApiKey : Option String := none
  inboxes : List AgentInbox := []
  preferences : Option (Preferences V) := none
  drafts : Option (JsObj Draft) := none
deriving DecidableEq, Repr

/-- Type `StoredConfiguration` from `config-storage.ts` — the same document
shape as `PersistentConfig` (seen through JSON, required metadata fields
may still be missing at runtime, hence optional here as well). -/
abbrev StoredConfiguration (V : Type) : Type := PersistentConfig V

/-- The chained optional access `config.preferences?.inboxSettings`, with
`{...undefined}` collapsing to the empty object. -/
def settingsOf {V : Type} (cfg : PersistentConfig V) : JsObj (JsObj (Option V)) :=
  (cfg.preferences.bind (fun p => p.inboxSettings)).getD []

/-- The access `config.preferences?.inboxSettings?.[inboxId]?.[settingKey]`
flattened to a single `Option`: `none` when any link of the chain is absent
or the stored value is `undefined`. -/
def overrideVal {V : Type} (cfg : PersistentConfig V) (inboxId settingKey : String) :
    Option V :=
  ((cfg.preferences.bind (fun p => p.inboxSettings)).bind
    (fun m => jsLookup m inboxId)).bind
    (fun record => (jsLookup record settingKey).bind id)

/-- The access `(config.preferences?.inboxDefaults as any)?.[settingKey]`,
flattened the same way. -/
def globalVal {V : Type} (cfg : PersistentConfig V) (settingKey : String) : Option V :=
  (cfg.preferences.bind (fun p => p.inboxDefaults)).bind
    (fun m => (jsLookup m settingKey).bind id)

/-- Function `getInboxSetting` (`inbox-settings-utils.ts`): per-inbox override first,
then the global default, then the hardcoded app default. -/
def getInboxSetting {V : Type} (inboxId settingKey : String) (appDefault : V)
    (cfg : PersistentConfig V) : V :=
  match overrideVal cfg inboxId settingKey with
  | some v => v
  | none =>
    match globalVal cfg settingKey with
    | some v => v
    | none => appDefault

/-- The new `inboxSettings` dictionary built by `setInboxSetting`:
`{...settings, [inboxId]: {...settings[inboxId], [settingKey]: value}}`
(spreading `undefined` yields `{}`). -/
def setSettingsMap {V : Type} (settings : JsObj (JsObj (Option V)))
    (inboxId settingKey : String) (value : Option V) : JsObj (JsObj (Option V)) :=
  jsInsert settings inboxId
    (jsInsert ((jsLookup settings inboxId).getD []) settingKey value)

/-- The new `inboxSettings` dictionary built by `clearInboxSetting`: when the
entry exists, drop `settingKey` from it; when the remaining record has no
keys, delete the whole per-inbox entry. -/
def clearSettingsMap {V : Type} (settings : JsObj (JsObj (Option V)))
    (inboxId settingKey : String) : JsObj (JsObj (Option V)) :=
  match jsLookup settings inboxId with
  | some record =>
    let rest := jsErase record settingKey
    if rest.isEmpty then jsErase settings inboxId else jsInsert settings inboxId rest
  | none => settings

/-- Function `setInboxSetting` (`inbox-settings-utils.ts`): immutably sets
`preferences.inboxSettings[inboxId][settingKey] = value`, spreading the
previous record (or `{}` when absent). -/
def setInboxSetting {V : Type} (inboxId settingKey : String) (value : Option V)
    (cfg : PersistentConfig V) : PersistentConfig V :=
  { cfg with
    preferences := some { cfg.preferences.getD emptyPrefs with
                          inboxSettings :=
                            some (setSettingsMap (settingsOf cfg) inboxId settingKey value) } }

/-- Function `clearInboxSetting` (`inbox-settings-utils.ts`): removes the single key
from the per-inbox record; when the record becomes empty, removes the whole
per-inbox entry. -/
def clearInboxSetting {V : Type} (inboxId settingKey : String)
    (cfg : PersistentConfig V) : PersistentConfig V :=
  { cfg with
    preferences := some { cfg.preferences.getD emptyPrefs with
                          inboxSettings :=
                            some (clearSettingsMap (settingsOf cfg) inboxId settingKey) } }

/-- No per-inbox override record in the dictionary is the empty record. -/
def NoEmptyEntry {V : Type} (m : JsObj (JsObj (Option V))) : Prop :=
  ∀ id' r, jsLookup m id' = some r → r ≠ []

/-- A `Partial<PersistentConfig>` argument to `updateConfig`: each top-level
key is either absent (`none`, keep the previous value) or present with a
value of the field's type (spread-override). -/
structure ConfigPatch (V : Type) where
  version : Option (Option String) := none
  lastUpdated : Option (Option String) := none
  langsmithApiKey : Option (Option String) := none
  inboxes : Option (List AgentInbox) := none
  preferences : Option (Option (Preferences V)) := none
  drafts : Option (Option (JsObj Draft)) := none
deriving DecidableEq, Repr

/-- The in-memory merge done by `updateConfig`
(`use-persistent-config.tsx`): `updated = { ...prev, ...updates }`, shallow
per top-level key.  (The source then writes `updated` to the local cache;
the pending-save flag and the `immediate` handling of
`updateConfig(updates, immediate)` are modelled in `updateConfigCall`
below.) -/
def updateConfig {V : Type} (cfg : PersistentConfig V) (u : ConfigPatch V) :
    PersistentConfig V :=
  { version := u.version.getD cfg.version
    lastUpdated := u.lastUpdated.getD cfg.lastUpdated
    langsmithApiKey := u.langsmithApiKey.getD cfg.langsmithApiKey
    inboxes := u.inboxes.getD cfg.inboxes
    preferences := u.preferences.getD cfg.preferences
    drafts := u.drafts.getD cfg.drafts }

/-- Outcome of one run of the periodic sync routine: whether a remote read
(fetch of `GET /api/config`) was performed, and the in-memory document
afterwards. -/
structure PullResult (V : Type) where
  didRead : Bool
  newConfig : PersistentConfig V
deriving DecidableEq, Repr

/-- Function `syncWithServer` (`use-persistent-config.tsx`, Phase 4A+
version): returns immediately when `serverEnabled` is false; skips the pull
entirely — no fetch — when `hasPendingSave.current || isSaving` (an
unflushed local edit exists or a save is in flight); otherwise performs
`loadFromServer`, which fetches the remote document and, when the response
carries a stored document, replaces the in-memory state with it
(`setConfig(data.config)`).  `remote` is the document the endpoint returns:
`none` models a response without a usable document (storage disabled on the
server, or a network error). -/
def syncWithServer {V : Type} (serverEnabled hasPendingSave isSaving : Bool)
    (cfg : PersistentConfig V) (remote : Option (PersistentConfig V)) :
    PullResult V :=
  if serverEnabled then
    if hasPendingSave || isSaving then ⟨false, cfg⟩
    else
      match remote with
      | some r => ⟨true, r⟩
      | none => ⟨true, cfg⟩
  else ⟨false, cfg⟩

/-- The per-render state of the hook that the save machinery touches: the
in-memory document, the `hasPendingSave` ref, the `isSaving` state, and the
pending debounce timer (`saveTimeoutRef`, as its fire time). -/
structure HookState (V : Type) where
  config : PersistentConfig V
  hasPendingSave : Bool := false
  isSaving : Bool := false
  saveTimeout : Option Nat := none
deriving DecidableEq, Repr

/-- One run of the save effect of `use-persistent-config.tsx` (Phase 4A+),
triggered whenever a dependency (`config` or `isSaving`) changed: the
cleanup of the previous run clears any scheduled timeout; then, when ready
(`serverEnabled && !isLoading && hasInitialSynced`) and `hasPendingSave`,
either `saveToServer()` runs at once (`isSaving` branch) or a debounced
save is scheduled 1000 ms ahead.  Returns the new state and the pushes
(time, payload) issued. -/
def saveEffect {V : Type} (ready : Bool) (st : HookState V) (now : Nat) :
    HookState V × List (Nat × PersistentConfig V) :=
  let st1 := { st with saveTimeout := none }
  if ready then
    if st1.hasPendingSave then
      if st1.isSaving then (st1, [(now, st1.config)])
      else ({ st1 with saveTimeout := some (now + 1000) }, [])
    else (st1, [])
  else (st1, [])

/-- The debounce timeout firing: its callback calls `setIsSaving(true)` and
`saveToServer()`; the `isSaving` change re-renders, so the save effect runs
again — while `hasPendingSave` is still set and the first save is still in
flight, its `isSaving` branch calls `saveToServer()` a second time. -/
def fireTimeout {V : Type} (ready : Bool) (st : HookState V) (tf : Nat) :
    HookState V × List (Nat × PersistentConfig V) :=
  let st1 : HookState V := { st with isSaving := true, saveTimeout := none }
  let after := saveEffect ready st1 tf
  (after.1, (tf, st.config) :: after.2)

/-- A call to `updateConfig(updates, immediate)` (Phase 4A+): merges the
partial document into state (and the local cache), marks
`hasPendingSave.current = true`; with `immediate && serverEnabled` it clears
any scheduled debounced save and sets `isSaving`; the `config` change
re-renders and the save effect runs. -/
def updateConfigCall {V : Type} (serverEnabled ready : Bool) (st : HookState V)
    (u : ConfigPatch V) (immediate : Bool) (t : Nat) :
    HookState V × List (Nat × PersistentConfig V) :=
  let st1 : HookState V :=
    { st with config := updateConfig st.config u, hasPendingSave := true }
  let st2 : HookState V :=
    if immediate && serverEnabled then
      { st1 with saveTimeout := none, isSaving := true }
    else st1
  saveEffect ready st2 t

/-- An in-flight `saveToServer()` resolving: on success its `.then` handler
clears `hasPendingSave` and calls `setIsSaving(false)` — when `isSaving`
actually flips, the re-render runs the save effect again; on failure
nothing changes (no retry). -/
def resolveSave {V : Type} (ready : Bool) (st : HookState V) (success : Bool)
    (t : Nat) : HookState V × List (Nat × PersistentConfig V) :=
  if success then
    let st1 : HookState V := { st with hasPendingSave := false }
    if st.isSaving then saveEffect ready { st1 with isSaving := false } t
    else (st1, [])
  else (st, [])

/-- An external event in a client session while the engine is in its
steady state: a call to `updateConfig(u, immediate)`, or an in-flight save
resolving with the given success. -/
inductive HookEvent (V : Type) where
  | upd (u : ConfigPatch V) (immediate : Bool)
  | resolve (success : Bool)
deriving DecidableEq, Repr

/-- The save machinery of `use-persistent-config.tsx` (Phase 4A+) run over
a time-stamped event trace: before each event the scheduled debounce
timeout fires if its deadline has passed, and at the end of the trace a
still-scheduled timeout fires.  Returns every push `(fire time, payload)`
in order. -/
def runHook {V : Type} (serverEnabled ready : Bool) :
    HookState V → List (Nat × HookEvent V) → List (Nat × PersistentConfig V)
  | st, [] =>
    match st.saveTimeout with
    | some tf => (fireTimeout ready st tf).2
    | none => []
  | st, (t, ev) :: rest =>
    let fired :=
      match st.saveTimeout with
      | some tf => if tf ≤ t then fireTimeout ready st tf else (st, [])
      | none => (st, [])
    let stepped :=
      match ev with
      | .upd u imm => updateConfigCall serverEnabled ready fired.1 u imm t
      | .resolve success => resolveSave ready fired.1 success t
    fired.2 ++ stepped.2 ++ runHook serverEnabled ready stepped.1 rest

/-- Each event of the burst follows the previous one after less than the
1000 ms debounce window. -/
def closeTimes {V : Type} : List (Nat × ConfigPatch V) → Bool
  | (t, _) :: (t', u) :: rest => decide (t' < t + 1000) && closeTimes ((t', u) :: rest)
  | _ => true

/-- The timestamp of the last event of a nonempty trace, written
head-and-tail. -/
def lastTime {V : Type} : Nat × ConfigPatch V → List (Nat × ConfigPatch V) → Nat
  | e, [] => e.1
  | _, e' :: rest => lastTime e' rest

/-- A burst of non-immediate `updateConfig` calls as an event trace. -/
def burstTrace {V : Type} (events : List (Nat × ConfigPatch V)) :
    List (Nat × HookEvent V) :=
  events.map (fun p => (p.1, HookEvent.upd p.2 false))

/-- Function `loadDraft` (`use-draft-storage.tsx`):
`config.drafts?.[threadId]?.content`. -/
def loadDraft {V : Type} (cfg : PersistentConfig V) (threadId : String) :
    Option String :=
  (cfg.drafts.bind (fun d => jsLookup d threadId)).map (fun d => d.content)

/-- Characters stripped from each end by `String.prototype.trim`. -/
def trimChars (l : List Char) : List Char :=
  ((l.dropWhile Char.isWhitespace).reverse.dropWhile Char.isWhitespace).reverse

/-- JavaScript `s.trim()`. -/
def jsTrim (s : String) : String := ⟨trimChars s.data⟩

/-- Function `hasDraft` (`use-draft-storage.tsx`): `!!draft && draft.trim().length > 0`
on `config.drafts?.[threadId]?.content`. -/
def hasDraft {V : Type} (cfg : PersistentConfig V) (threadId : String) : Bool :=
  match (cfg.drafts.bind (fun d => jsLookup d threadId)).map (fun d => d.content) with
  | none => false
  | some c => (!(c == "")) && decide (0 < (jsTrim c).length)

/-- The server-side file store of `config-storage.ts`: the persisted
document (`none` when no file exists — or, equivalently for `loadConfig`,
when the stored bytes fail to read or parse) and whether file-system I/O
succeeds (`ioOk = false` models `writeFile`/`rename`/`unlink` failing with
an error other than `ENOENT`). -/
structure ServerStore (V : Type) where
  file : Option (PersistentConfig V)
  ioOk : Bool
deriving DecidableEq, Repr

/-- Function `loadConfig` (`config-storage.ts`): `null` when `USE_SERVER_STORAGE` is
off; otherwise the parsed stored document, `null` when the file is missing
(`ENOENT`) or unreadable. -/
def loadConfig {V : Type} (useServerStorage : Bool) (s : ServerStore V) :
    Option (PersistentConfig V) :=
  if useServerStorage then s.file else none

/-- The metadata `saveConfig` stamps on every save:
`version: config.version || "1.0.0"`, `lastUpdated: new Date().toISOString()`. -/
def withMeta {V : Type} (cfg : PersistentConfig V) (now : String) :
    PersistentConfig V :=
  { cfg with version := some (jsOr cfg.version "1.0.0"), lastUpdated := some now }

/-- Function `saveConfig` (`config-storage.ts`): `null` without touching the store
when `USE_SERVER_STORAGE` is off or the write fails; otherwise atomically
replaces the stored file with the metadata-stamped document and returns
it. -/
def saveConfig {V : Type} (useServerStorage : Bool) (now : String)
    (s : ServerStore V) (cfg : PersistentConfig V) :
    Option (PersistentConfig V) × ServerStore V :=
  if useServerStorage then
    if s.ioOk then
      (some (withMeta cfg now), { s with file := some (withMeta cfg now) })
    else (none, s)
  else (none, s)

/-- The deployment-time environment variables read by
`getEnvDefaultConfig`: an optional API key, the pre-provisioned default
inbox (`DEFAULT_INBOX_ENABLED === "true"` plus its name/URL/assistant id),
`ADDITIONAL_INBOXES` as stored JSON (inner `none` = the JSON fails to
parse) and `DEFAULT_THEME`. -/
structure Env where
  langsmithApiKey : Option String := none
  defaultInboxEnabled : Bool := false
  defaultInboxName : Option String := none
  defaultDeploymentUrl : Option String := none
  defaultAssistantId : Option String := none
  additionalInboxes : Option (Option (List AgentInbox)) := none
  defaultTheme : Option String := none
deriving DecidableEq, Repr

/-- The `Partial<StoredConfiguration>` built by `getEnvDefaultConfig`. -/
structure EnvDefaults (V : Type) where
  inboxes : List AgentInbox
  langsmithApiKey : Option String
  preferences : Preferences V
deriving DecidableEq, Repr

/-- Function `getEnvDefaultConfig` (`config-storage.ts`): assembles inboxes, API key
and theme from environment variables (JavaScript truthiness: unset and the
empty string both skip a field; a parse failure of `ADDITIONAL_INBOXES` is
logged and ignored). -/
def getEnvDefaultConfig (V : Type) (env : Env) (now : String) : EnvDefaults V :=
  let key : Option String := env.langsmithApiKey.bind
    (fun k => if k = "" then none else some k)
  let inboxes1 : List AgentInbox :=
    if env.defaultInboxEnabled then
      [{ id := "default"
         name := jsOr env.defaultInboxName "Default Inbox"
         deploymentUrl := jsOr env.defaultDeploymentUrl ""
         graphId := jsOr env.defaultAssistantId ""
         selected := false
         createdAt := now }]
    else []
  let inboxes2 : List AgentInbox :=
    match env.additionalInboxes with
    | some (some more) => inboxes1 ++ more
    | _ => inboxes1
  let prefs : Preferences V :=
    match env.defaultTheme with
    | some t => if t = "" then emptyPrefs else { emptyPrefs with theme := some t }
    | none => emptyPrefs
  { inboxes := inboxes2, langsmithApiKey := key, preferences := prefs }

/-- The initial document the GET route builds from the environment defaults
when nothing is stored yet (`route.ts`). -/
def seedConfig (V : Type) (env : Env) (now : String) : PersistentConfig V :=
  let d := getEnvDefaultConfig V env now
  { inboxes := d.inboxes
    langsmithApiKey := d.langsmithApiKey
    preferences := some d.preferences
    version := some "1.0.0"
    lastUpdated := some now
    drafts := none }

/-- The JSON body of a `GET /api/config` response, as far as the sync
engine consumes it: the `enabled` flag and the optional document. -/
structure ConfigResponse (V : Type) where
  enabled : Bool
  config : Option (PersistentConfig V)
deriving DecidableEq, Repr

/-- The `GET /api/config` handler (`route.ts`): disabled storage short-
circuits; a stored document is returned as-is; otherwise the route seeds an
initial document from the environment defaults, persists it, and returns
the saved copy (falling back to the unsaved initial document when the
persist fails). -/
def GET {V : Type} (useServerStorage : Bool) (env : Env) (now : String)
    (s : ServerStore V) : ConfigResponse V × ServerStore V :=
  if useServerStorage then
    match loadConfig true s with
    | some cfg => ({ enabled := true, config := some cfg }, s)
    | none =>
      let initial := seedConfig V env now
      let saved := saveConfig true now s initial
      ({ enabled := true, config := some (saved.1.getD initial) }, saved.2)
  else ({ enabled := false, config := none }, s)

/-- Function `deleteConfig` (`config-storage.ts`): `false` when `USE_SERVER_STORAGE`
is off; `unlink` errors other than `ENOENT` yield `false`; removing the
file — or finding it already absent (`ENOENT`) — yields `true`. -/
def deleteConfig {V : Type} (useServerStorage : Bool) (s : ServerStore V) :
    Bool × ServerStore V :=
  if useServerStorage then
    if s.ioOk then
      match s.file with
      | some _ => (true, { s with file := none })
      | none => (true, s)
    else (false, s)
  else (false, s)

/-- The browser-local store as `loadFromLocalStorage` sees it: each slot is
`none` when `getItem` returns `null`; a present slot holds `none` when its
stored string makes `JSON.parse` throw, `some v` when it parses to `v`. -/
structure LocalStorage (V : Type) where
  inboxesStr : Option (Option (List AgentInbox)) := none
  apiKey : Option String := none
  prefsStr : Option (Option (Preferences V)) := none
  draftsStr : Option (Option (JsObj Draft)) := none
deriving DecidableEq, Repr

/-- The document the `catch` branch of `loadFromLocalStorage` returns:
`{ inboxes: [] }`. -/
def zeroConfig (V : Type) : PersistentConfig V := { inboxes := [] }

/-- Function `loadFromLocalStorage` (`use-persistent-config.tsx`, Phase
4A+): reads the four slots (`agentInboxes`, `langsmithApiKey`,
`agentInboxPreferences`, `agentInboxDrafts`); a missing inboxes slot
yields `[]`, missing preferences and drafts slots yield `{}`, the API key
is passed through `|| undefined`; any parse throw lands in the `catch`
branch, which returns `{ inboxes: [] }`.  In every case a document is
returned — no error escapes.  (The server-side-render early return, which
also yields `{ inboxes: [] }`, is outside the browser model.) -/
def loadFromLocalStorage {V : Type} (s : LocalStorage V) : PersistentConfig V :=
  let attempt : Option (PersistentConfig V) := do
    let inboxes ← match s.inboxesStr with
      | none => some []
      | some p => p
    let prefs ← match s.prefsStr with
      | none => some (some emptyPrefs)
      | some p => p.map some
    let drafts ← match s.draftsStr with
      | none => some (some [])
      | some p => p.map some
    some { inboxes := inboxes
           langsmithApiKey := s.apiKey.bind (fun k => if k = "" then none else some k)
           preferences := prefs
           version := none
           lastUpdated := none
           drafts := drafts }
  attempt.getD (zeroConfig V)

/-- The decimal digit characters used when a number is spliced into a
template string. -/
def digitChar (n : Nat) : Char :=
  match n with
  | 0 => '0' | 1 => '1' | 2 => '2' | 3 => '3' | 4 => '4'
  | 5 => '5' | 6 => '6' | 7 => '7' | 8 => '8' | _ => '9'

/-- Fuel-driven most-significant-first decimal digit list of `n`; any fuel
above `n` yields the same digits. -/
def natDigitsAux : Nat → Nat → List Char
  | 0, _ => []
  | fuel + 1, n =>
    if n < 10 then [digitChar n]
    else natDigitsAux fuel (n / 10) ++ [digitChar (n % 10)]

/-- The decimal rendering of a natural number, as JavaScript template
interpolation `${counter}` produces it. -/
def natToStr (n : Nat) : String := ⟨natDigitsAux (n + 1) n⟩

/-- Membership in the character class `[a-z0-9-]` kept by `generateSlug`. -/
def isSlugChar (c : Char) : Bool :=
  (decide ('a' ≤ c) && decide (c ≤ 'z'))
    || (decide ('0' ≤ c) && decide (c ≤ '9'))
    || c == '-'

/-- The `-+ → -` collapse of consecutive hyphens. -/
def collapseHyphens : List Char → List Char
  | [] => []
  | [c] => [c]
  | c :: d :: rest =>
    if c = '-' ∧ d = '-' then collapseHyphens (d :: rest)
    else c :: collapseHyphens (d :: rest)

/-- One leading hyphen removed (the `^-` half of `replace(/^-|-$/g, '')`). -/
def dropLeadingHyphen : List Char → List Char
  | '-' :: rest => rest
  | l => l

/-- One trailing hyphen removed (the `-$` half). -/
def dropTrailingHyphen (l : List Char) : List Char :=
  (dropLeadingHyphen l.reverse).reverse

/-- Function `generateSlug` (`config-storage.ts`): lowercase, trim, whitespace and
underscores to hyphens (runs collapse in the later `-+` step), strip
characters outside `[a-z0-9-]`, collapse consecutive hyphens, strip one
leading and one trailing hyphen. -/
def generateSlug (name : String) : String :=
  let step1 := trimChars (name.data.map Char.toLower)
  let step2 := step1.map (fun c => if c.isWhitespace || c == '_' then '-' else c)
  let step3 := step2.filter isSlugChar
  let step4 := collapseHyphens step3
  ⟨dropTrailingHyphen (dropLeadingHyphen step4)⟩

/-- The collision test of `getUniqueSlug`:
`existingInboxes.some(inbox => inbox.slug === slug && inbox.id !== currentInboxId)`. -/
def slugTaken (existing : List AgentInbox) (cur : Option String)
    (slug : String) : Bool :=
  existing.any (fun i => i.slug == some slug && some i.id != cur)

/-- The `while` loop of `getUniqueSlug`, fuelled: as long as the current
candidate collides, try `base-counter` with the counter incremented.  A
fuel of `existing.length + 1` is enough for the loop to exit on its own
(`slugLoop_avoids` + `exists_free_candidate` below). -/
def slugLoop (existing : List AgentInbox) (cur : Option String)
    (base : String) : Nat → String → Nat → String
  | 0, slug, _ => slug
  | fuel + 1, slug, counter =>
    if slugTaken existing cur slug then
      slugLoop existing cur base fuel (base ++ "-" ++ natToStr counter) (counter + 1)
    else slug

/-- Function `getUniqueSlug` (`config-storage.ts`): when the base slug is empty the
function returns `inbox-` followed by a random six-character string —
`rand` stands for that `Math.random()` outcome — without any collision
check; otherwise it runs the collision loop starting at counter 2. -/
def getUniqueSlug (name : String) (existing : List AgentInbox)
    (cur : Option String) (rand : String) : String :=
  let baseSlug := generateSlug name
  if baseSlug = "" then "inbox-" ++ rand
  else slugLoop existing cur baseSlug (existing.length + 1) baseSlug 2

/-- The suffixed candidate `` `${baseSlug}-${counter}` ``. -/
def slugCand (base : String) (k : Nat) : String := base ++ "-" ++ natToStr k

/-- The candidate the collision loop examines at its `j`-th iteration when
started on `slug` with counter value `counter`. -/
def slugCandAt (base slug : String) (counter : Nat) : Nat → String
  | 0 => slug
  | j + 1 => slugCand base (counter + j)

/-! ### Association-list lemmas -/

theorem jsLookup_insert_self {α : Type} (m : JsObj α) (k : String) (v : α) :
    jsLookup (jsInsert m k v) k = some v := by
  induction m with
  | nil => simp [jsInsert, jsLookup]
  | cons p rest ih =>
    obtain ⟨k0, v0⟩ := p
    by_cases h : k0 = k
    · subst h; simp [jsInsert, jsLookup]
    · simp [jsInsert, jsLookup, h, ih]

theorem jsLookup_insert_ne {α : Type} (m : JsObj α) (k k' : String) (v : α)
    (hne : k' ≠ k) :
    jsLookup (jsInsert m k v) k' = jsLookup m k' := by
  induction m with
  | nil => simp [jsInsert, jsLookup, hne.symm]
  | cons p rest ih =>
    obtain ⟨k0, v0⟩ := p
    by_cases h : k0 = k
    · subst h
      simp [jsInsert, jsLookup, hne.symm]
    · simp [jsInsert, jsLookup, h, ih]

theorem jsLookup_erase_self {α : Type} (m : JsObj α) (k : String) :
    jsLookup (jsErase m k) k = none := by
  induction m with
  | nil => simp [jsErase, jsLookup]
  | cons p rest ih =>
    obtain ⟨k0, v0⟩ := p
    by_cases h : k0 = k
    · subst h; simpa [jsErase] using ih
    · simpa [jsErase, jsLookup, h] using ih

theorem jsLookup_erase_ne {α : Type} (m : JsObj α) (k k' : String)
    (hne : k' ≠ k) :
    jsLookup (jsErase m k) k' = jsLookup m k' := by
  induction m with
  | nil => simp [jsErase]
  | cons p rest ih =>
    obtain ⟨k0, v0⟩ := p
    by_cases h : k0 = k
    · subst h
      simp [jsErase, jsLookup, hne.symm, ih]
    · simp [jsErase, jsLookup, h, ih]

theorem jsInsert_ne_nil {α : Type} (m : JsObj α) (k : String) (v : α) :
    jsInsert m k v ≠ [] := by
  cases m with
  | nil => simp [jsInsert]
  | cons p rest =>
    obtain ⟨k0, v0⟩ := p
    by_cases h : k0 = k <;> simp [jsInsert, h]

/-! ### C2 — resolver precedence -/

/-- C2: for every entity id, setting key, document and hardcoded default
`D`, `getInboxSetting` returns the per-inbox override when it is present
and not `undefined`; otherwise the global default for that key when present
and not `undefined`; otherwise `D`. -/
theorem getInboxSetting_precedence {V : Type} (cfg : PersistentConfig V)
    (inboxId settingKey : String) (appDefault : V) :
    (∀ o, overrideVal cfg inboxId settingKey = some o →
      getInboxSetting inboxId settingKey appDefault cfg = o) ∧
    (overrideVal cfg inboxId settingKey = none →
      ∀ g, globalVal cfg settingKey = some g →
        getInboxSetting inboxId settingKey appDefault cfg = g) ∧
    (overrideVal cfg inboxId settingKey = none →
      globalVal cfg settingKey = none →
        getInboxSetting inboxId settingKey appDefault cfg = appDefault) := by
  refine ⟨?_, ?_, ?_⟩
  · intro o ho; simp [getInboxSetting, ho]
  · intro ho g hg; simp [getInboxSetting, ho, hg]
  · intro ho hg; simp [getInboxSetting, ho, hg]

/-- Witness for C2 at a concrete document: an override `"pending"` for inbox
`"i1"` beats the global default `"all"`, which in turn beats the app
default `"interrupted"` for an inbox without an override. -/
theorem getInboxSetting_precedence_witness :
    getInboxSetting "i1" "defaultView" "interrupted"
      ({ preferences := some { inboxDefaults := some [("defaultView", some "all")],
                               inboxSettings := some [("i1", [("defaultView", some "pending")])] } }
        : PersistentConfig String) = "pending" ∧
    getInboxSetting "i2" "defaultView" "interrupted"
      ({ preferences := some { inboxDefaults := some [("defaultView", some "all")],
                               inboxSettings := some [("i1", [("defaultView", some "pending")])] } }
        : PersistentConfig String) = "all" ∧
    getInboxSetting "i2" "defaultView" "interrupted"
      ({} : PersistentConfig String) = "interrupted" := by
  refine ⟨?_, ?_, ?_⟩
  · exact (getInboxSetting_precedence _ "i1" "defaultView" "interrupted").1 "pending"
      (by decide)
  · exact (getInboxSetting_precedence _ "i2" "defaultView" "interrupted").2.1
      (by decide) "all" (by decide)
  · exact (getInboxSetting_precedence ({} : PersistentConfig String)
      "i2" "defaultView" "interrupted").2.2 (by decide) (by decide)

/-! ### C4 — override record cleanup -/

theorem settingsOf_set {V : Type} (cfg : PersistentConfig V)
    (inboxId settingKey : String) (v : Option V) :
    settingsOf (setInboxSetting inboxId settingKey v cfg)
      = setSettingsMap (settingsOf cfg) inboxId settingKey v := rfl

theorem settingsOf_clear {V : Type} (cfg : PersistentConfig V)
    (inboxId settingKey : String) :
    settingsOf (clearInboxSetting inboxId settingKey cfg)
      = clearSettingsMap (settingsOf cfg) inboxId settingKey := rfl

/-- C4: clearing an entity's last remaining overridden key leaves the
override map with no entry at all for that entity, and neither
`setInboxSetting` nor `clearInboxSetting` ever produces an override entry
that is an empty record. -/
theorem override_record_cleanup {V : Type} (cfg : PersistentConfig V)
    (inboxId settingKey : String) (v : Option V) :
    (∀ record, jsLookup (settingsOf cfg) inboxId = some record →
      jsErase record settingKey = [] →
      jsLookup (settingsOf (clearInboxSetting inboxId settingKey cfg)) inboxId = none) ∧
    (NoEmptyEntry (settingsOf cfg) →
      NoEmptyEntry (settingsOf (setInboxSetting inboxId settingKey v cfg)) ∧
      NoEmptyEntry (settingsOf (clearInboxSetting inboxId settingKey cfg))) := by
  constructor
  · intro record hrec hempty
    rw [settingsOf_clear]
    unfold clearSettingsMap
    rw [hrec]
    simp only [hempty, List.isEmpty_nil, if_pos]
    exact jsLookup_erase_self _ _
  · intro hne
    constructor
    · rw [settingsOf_set]
      intro id' r hr
      unfold setSettingsMap at hr
      by_cases hid : id' = inboxId
      · subst hid
        rw [jsLookup_insert_self] at hr
        cases hr
        exact jsInsert_ne_nil _ _ _
      · rw [jsLookup_insert_ne _ _ _ _ hid] at hr
        exact hne id' r hr
    · rw [settingsOf_clear]
      intro id' r hr
      cases hrec : jsLookup (settingsOf cfg) inboxId with
      | none =>
        simp only [clearSettingsMap, hrec] at hr
        exact hne id' r hr
      | some record =>
        simp only [clearSettingsMap, hrec] at hr
        by_cases hemp : (jsErase record settingKey).isEmpty
        · rw [if_pos hemp] at hr
          by_cases hid : id' = inboxId
          · subst hid
            rw [jsLookup_erase_self] at hr
            cases hr
          · rw [jsLookup_erase_ne _ _ _ hid] at hr
            exact hne id' r hr
        · rw [if_neg hemp] at hr
          by_cases hid : id' = inboxId
          · subst hid
            rw [jsLookup_insert_self] at hr
            cases hr
            intro hnil
            rw [hnil] at hemp
            simp at hemp
          · rw [jsLookup_insert_ne _ _ _ _ hid] at hr
            exact hne id' r hr

/-- Witness for C4 at a concrete document: inbox `"i1"` has the single
override key `"defaultView"`; clearing it removes the `"i1"` entry, and the
no-empty-record invariant is preserved by a concrete set operation. -/
theorem override_record_cleanup_witness :
    jsLookup
      (settingsOf (clearInboxSetting "i1" "defaultView"
        ({ preferences := some { inboxSettings := some [("i1", [("defaultView", some "all")])] } }
          : PersistentConfig String))) "i1" = none ∧
    NoEmptyEntry (settingsOf (setInboxSetting "i1" "defaultView" (some "pending")
        ({ preferences := some { inboxSettings := some [("i1", [("defaultView", some "all")])] } }
          : PersistentConfig String))) := by
  have h := override_record_cleanup
    ({ preferences := some { inboxSettings := some [("i1", [("defaultView", some "all")])] } }
      : PersistentConfig String) "i1" "defaultView" (some "pending")
  refine ⟨h.1 [("defaultView", some "all")] (by decide) (by decide), ?_⟩
  refine (h.2 ?_).1
  intro id' r hr
  by_cases hid : "i1" = id'
  · subst hid
    simp only [settingsOf, jsLookup, if_pos rfl, Option.some_bind] at hr
    cases hr
    decide
  · simp only [settingsOf, jsLookup, if_neg hid, Option.some_bind] at hr
    cases hr

/-! ### C1 — pull suppression while a push is pending -/

/-- C1: a call to `updateConfig` sets `hasPendingSave`, and while it is set
(the debounced push has not completed), the periodic sync — whatever
document the remote would return — performs no remote read and leaves the
in-memory document unchanged, so the state after the pull still reflects
the local update. -/
theorem pull_suppression {V : Type} (st : HookState V) (u : ConfigPatch V)
    (imm : Bool) (t : Nat) (remote : Option (PersistentConfig V)) :
    ((updateConfigCall true true st u imm t).1).config
      = updateConfig st.config u ∧
    ((updateConfigCall true true st u imm t).1).hasPendingSave = true ∧
    syncWithServer true
        ((updateConfigCall true true st u imm t).1).hasPendingSave
        ((updateConfigCall true true st u imm t).1).isSaving
        ((updateConfigCall true true st u imm t).1).config remote
      = ⟨false, updateConfig st.config u⟩ := by
  cases imm <;> cases hS : st.isSaving <;>
    simp [updateConfigCall, saveEffect, syncWithServer, hS]

/-! ### C3 — debounce coalescing -/

theorem runHook_upd_step {V : Type} (st : HookState V) (hS : st.isSaving = false)
    (u : ConfigPatch V) (t : Nat) (rest : List (Nat × HookEvent V))
    (hfire : ∀ tf, st.saveTimeout = some tf → t < tf) :
    runHook true true st ((t, HookEvent.upd u false) :: rest)
      = runHook true true
          ⟨updateConfig st.config u, true, false, some (t + 1000)⟩ rest := by
  obtain ⟨cfg, p, iS, tmo⟩ := st
  simp only at hS
  subst hS
  cases tmo with
  | none => simp [runHook, updateConfigCall, saveEffect]
  | some tf =>
    have hlt : t < tf := hfire tf rfl
    simp [runHook, updateConfigCall, saveEffect, Nat.not_le.mpr hlt]

theorem runHook_burst_aux {V : Type} (rest : List (Nat × ConfigPatch V)) :
    ∀ (e : Nat × ConfigPatch V) (cfg : PersistentConfig V) (p : Bool)
      (tmo : Option Nat),
      closeTimes (e :: rest) = true →
      (∀ tf, tmo = some tf → e.1 < tf) →
      runHook true true ⟨cfg, p, false, tmo⟩ (burstTrace (e :: rest))
        = [(lastTime e rest + 1000,
            (e :: rest).foldl (fun c q => updateConfig c q.2) cfg),
           (lastTime e rest + 1000,
            (e :: rest).foldl (fun c q => updateConfig c q.2) cfg)] := by
  induction rest with
  | nil =>
    intro e cfg p tmo hclose htmo
    obtain ⟨t, u⟩ := e
    rw [show burstTrace [(t, u)] = [(t, HookEvent.upd u false)] from rfl,
        runHook_upd_step ⟨cfg, p, false, tmo⟩ rfl u t [] htmo]
    simp [runHook, fireTimeout, saveEffect, lastTime]
  | cons e' rest' ih =>
    intro e cfg p tmo hclose htmo
    obtain ⟨t, u⟩ := e
    obtain ⟨t', u'⟩ := e'
    have hparts : t' < t + 1000 ∧ closeTimes ((t', u') :: rest') = true := by
      simpa [closeTimes] using hclose
    rw [show burstTrace ((t, u) :: (t', u') :: rest')
          = (t, HookEvent.upd u false) :: burstTrace ((t', u') :: rest') from rfl,
        runHook_upd_step ⟨cfg, p, false, tmo⟩ rfl u t _ htmo,
        ih (t', u') (updateConfig cfg u) true (some (t + 1000)) hparts.2
          (by intro tf' htf'
              injection htf' with hh
              omega)]
    simp [lastTime]

/-- C3 counterexample: the spec scenario — `updateConfig` called five times
within 200 ms, debounce window 1000 ms — produces two push calls, not
exactly one: the debounce timer fires and posts, and the `setIsSaving(true)`
re-render runs the save effect again while `hasPendingSave` is still set,
posting a second time. -/
theorem debounce_coalescing_counterexample :
    (runHook true true (⟨{}, false, false, none⟩ : HookState String)
        (burstTrace [((0 : Nat), { langsmithApiKey := some (some "a") }),
                     (50, { langsmithApiKey := some (some "b") }),
                     (100, { langsmithApiKey := some (some "c") }),
                     (150, { langsmithApiKey := some (some "d") }),
                     (200, { langsmithApiKey := some (some "e") })])).length
      = 2 := by decide

/-- C3 amended: a burst of `updateConfig` calls, each less than the 1000 ms
debounce window after the previous one, produces exactly two pushes, both
fired 1000 ms after the last call and both carrying the document state
after the last call — the debounced `saveToServer` plus the re-run of the
save effect triggered by its `setIsSaving(true)` while `hasPendingSave` is
still set. -/
theorem debounce_double_push {V : Type} (cfg : PersistentConfig V)
    (e : Nat × ConfigPatch V) (rest : List (Nat × ConfigPatch V))
    (h : closeTimes (e :: rest) = true) :
    runHook true true ⟨cfg, false, false, none⟩ (burstTrace (e :: rest))
      = [(lastTime e rest + 1000,
          (e :: rest).foldl (fun c q => updateConfig c q.2) cfg),
         (lastTime e rest + 1000,
          (e :: rest).foldl (fun c q => updateConfig c q.2) cfg)] :=
  runHook_burst_aux rest e cfg false none h (by intro tf h'; cases h')

/-- Witness for C3 at the concrete five-call burst: both pushes fire at
1200 ms with the document after the fifth call. -/
theorem debounce_double_push_witness :
    runHook true true (⟨{}, false, false, none⟩ : HookState String)
        (burstTrace [((0 : Nat), { langsmithApiKey := some (some "a") }),
                     (50, { langsmithApiKey := some (some "b") }),
                     (100, { langsmithApiKey := some (some "c") }),
                     (150, { langsmithApiKey := some (some "d") }),
                     (200, { langsmithApiKey := some (some "e") })])
      = [(1200, { langsmithApiKey := some "e" }),
         (1200, { langsmithApiKey := some "e" })] := by
  have h := debounce_double_push ({} : PersistentConfig String)
    ((0 : Nat), { langsmithApiKey := some (some "a") })
    [(50, { langsmithApiKey := some (some "b") }),
     (100, { langsmithApiKey := some (some "c") }),
     (150, { langsmithApiKey := some (some "d") }),
     (200, { langsmithApiKey := some (some "e") })] (by decide)
  rw [h]
  decide

/-! ### C5 — the `immediate` flag -/

/-- C5: calling `updateConfig` with `immediate = true` cancels any scheduled
debounced push (whether or not one is pending) and pushes the merged
document right away; after that save resolves successfully no further push
happens — the run contains exactly the one immediate push. -/
theorem immediate_update_single_push {V : Type} (cfg : PersistentConfig V)
    (u : ConfigPatch V) (p : Bool) (tf t tr : Nat) (h : t < tf) :
    runHook true true ⟨cfg, p, false, some tf⟩
        [(t, HookEvent.upd u true), (tr, HookEvent.resolve true)]
      = [(t, updateConfig cfg u)] ∧
    runHook true true ⟨cfg, p, false, none⟩
        [(t, HookEvent.upd u true), (tr, HookEvent.resolve true)]
      = [(t, updateConfig cfg u)] := by
  constructor
  · simp [runHook, updateConfigCall, saveEffect, resolveSave, Nat.not_le.mpr h]
  · simp [runHook, updateConfigCall, saveEffect, resolveSave]

/-- Witness for C5: an immediate update at 0 ms with a debounced push
scheduled for 5000 ms (and without one) yields exactly the one immediate
push. -/
theorem immediate_update_single_push_witness :
    runHook true true (⟨{}, false, false, some 5000⟩ : HookState String)
        [((0 : Nat), HookEvent.upd { langsmithApiKey := some (some "k") } true),
         (100, HookEvent.resolve true)]
      = [(0, { langsmithApiKey := some "k" })] ∧
    runHook true true (⟨{}, false, false, none⟩ : HookState String)
        [((0 : Nat), HookEvent.upd { langsmithApiKey := some (some "k") } true),
         (100, HookEvent.resolve true)]
      = [(0, { langsmithApiKey := some "k" })] := by
  have h := immediate_update_single_push ({} : PersistentConfig String)
    { langsmithApiKey := some (some "k") } false 5000 0 100 (by decide)
  constructor
  · rw [h.1]; decide
  · rw [h.2]; decide

/-! ### C8 — empty-draft distinction -/

theorem string_mk_eq_empty_iff (l : List Char) : (String.mk l = "") ↔ l = [] := by
  constructor
  · intro h
    exact congrArg String.data h
  · intro h
    rw [h]

theorem jsTrim_ne_empty_iff (c : String) : jsTrim c ≠ "" ↔ 0 < (jsTrim c).length := by
  simp only [jsTrim, ne_eq, string_mk_eq_empty_iff]
  exact List.length_pos.symm

theorem jsTrim_ne_empty_content (c : String) (h : jsTrim c ≠ "") : c ≠ "" := by
  intro hc
  apply h
  rw [hc]
  rfl

/-- C8: a draft entry with empty content makes `hasDraft` false while
`loadDraft` still returns `""`; `hasDraft` is true exactly when an entry
exists whose trimmed content is nonempty; and `loadDraft` returns
`undefined` only when no entry exists at all. -/
theorem draft_semantics {V : Type} (cfg : PersistentConfig V) (threadId : String) :
    (∀ ts, cfg.drafts.bind (fun d => jsLookup d threadId) = some ⟨"", ts⟩ →
      hasDraft cfg threadId = false ∧ loadDraft cfg threadId = some "") ∧
    (hasDraft cfg threadId = true ↔
      ∃ d, cfg.drafts.bind (fun d => jsLookup d threadId) = some d ∧
        jsTrim d.content ≠ "") ∧
    (loadDraft cfg threadId = none ↔
      cfg.drafts.bind (fun d => jsLookup d threadId) = none) := by
  refine ⟨?_, ?_, ?_⟩
  · intro ts h
    exact ⟨by simp [hasDraft, h], by simp [loadDraft, h]⟩
  · cases h : cfg.drafts.bind (fun d => jsLookup d threadId) with
    | none => simp [hasDraft, h]
    | some d =>
      simp only [hasDraft, h, Option.map_some', Option.some.injEq]
      constructor
      · intro hb
        simp only [Bool.and_eq_true, Bool.not_eq_true', beq_eq_false_iff_ne,
          decide_eq_true_eq] at hb
        exact ⟨d, rfl, (jsTrim_ne_empty_iff _).mpr hb.2⟩
      · rintro ⟨d', hd', htrim⟩
        cases hd'
        simp only [Bool.and_eq_true, Bool.not_eq_true', beq_eq_false_iff_ne,
          decide_eq_true_eq]
        exact ⟨jsTrim_ne_empty_content _ htrim, (jsTrim_ne_empty_iff _).mp htrim⟩
  · cases h : cfg.drafts.bind (fun d => jsLookup d threadId) with
    | none => simp [loadDraft, h]
    | some d => simp [loadDraft, h]

/-- Witness for C8: a concrete document whose draft entry for `"t1"` has
empty content — `hasDraft` is false, `loadDraft` returns `""`. -/
theorem draft_semantics_witness :
    hasDraft ({ drafts := some [("t1", ⟨"", "2025-10-31"⟩)] } : PersistentConfig String)
      "t1" = false ∧
    loadDraft ({ drafts := some [("t1", ⟨"", "2025-10-31"⟩)] } : PersistentConfig String)
      "t1" = some "" :=
  (draft_semantics ({ drafts := some [("t1", ⟨"", "2025-10-31"⟩)] } : PersistentConfig String)
    "t1").1 "2025-10-31" (by decide)

/-! ### C6 — first-pull seeding happens at most once -/

theorem withMeta_seedConfig {V : Type} (env : Env) (now : String) :
    withMeta (seedConfig V env now) now = seedConfig V env now := by
  simp [withMeta, seedConfig, jsOr]

/-- C6: with remote storage enabled and nothing stored, a pull builds the
initial document from the environment defaults, persists it, and returns
it; provided that persist succeeds, any later pull returns the stored
document unchanged and leaves the store untouched — no re-seeding. -/
theorem first_pull_seeds_once {V : Type} (env env' : Env) (now now' : String)
    (s : ServerStore V) (hf : s.file = none) (hio : s.ioOk = true) :
    (GET true env now s).1.config = some (seedConfig V env now) ∧
    (GET true env now s).2.file = some (seedConfig V env now) ∧
    GET true env' now' (GET true env now s).2
      = ({ enabled := true, config := some (seedConfig V env now) },
         (GET true env now s).2) := by
  obtain ⟨file, io⟩ := s
  simp only at hf hio
  subst hf
  subst hio
  refine ⟨?_, ?_, ?_⟩ <;>
    simp [GET, loadConfig, saveConfig, withMeta_seedConfig]

/-- Witness for C6 at a concrete empty store and environment. -/
theorem first_pull_seeds_once_witness :
    (GET true ({} : Env) "t0" (⟨none, true⟩ : ServerStore String)).1.config
      = some (seedConfig String {} "t0") ∧
    (GET true ({} : Env) "t0" (⟨none, true⟩ : ServerStore String)).2.file
      = some (seedConfig String {} "t0") ∧
    GET true ({} : Env) "t1" (GET true ({} : Env) "t0"
        (⟨none, true⟩ : ServerStore String)).2
      = ({ enabled := true, config := some (seedConfig String {} "t0") },
         (GET true ({} : Env) "t0" (⟨none, true⟩ : ServerStore String)).2) :=
  first_pull_seeds_once {} {} "t0" "t1" ⟨none, true⟩ rfl rfl

/-! ### C7 — local cache read on empty or corrupt storage -/

/-- C7 counterexample: when nothing at all is stored, the local read
returns `preferences` and `drafts` present as empty records — not absent
fields, as the claim states. -/
theorem local_read_counterexample :
    (loadFromLocalStorage ({} : LocalStorage String)).inboxes = [] ∧
    (loadFromLocalStorage ({} : LocalStorage String)).preferences
      = some emptyPrefs ∧
    (loadFromLocalStorage ({} : LocalStorage String)).preferences ≠ none ∧
    (loadFromLocalStorage ({} : LocalStorage String)).drafts = some [] ∧
    (loadFromLocalStorage ({} : LocalStorage String)).drafts ≠ none :=
  ⟨rfl, rfl, by decide, rfl, by decide⟩

/-- C7 amended: the local read is total — it never surfaces an error.  With
nothing stored it returns empty inboxes, no credential, and `preferences`
and `drafts` present as empty records; when stored data in any slot fails
to parse it returns the zero document `{ inboxes: [] }` with every other
field absent. -/
theorem local_read_never_fails {V : Type} (s : LocalStorage V) :
    (s.inboxesStr = none ∧ s.apiKey = none ∧ s.prefsStr = none ∧
        s.draftsStr = none →
      loadFromLocalStorage s
        = { inboxes := [], preferences := some emptyPrefs,
            drafts := some [] }) ∧
    ((s.inboxesStr = some none ∨ s.prefsStr = some none ∨
        s.draftsStr = some none) →
      loadFromLocalStorage s = zeroConfig V) := by
  obtain ⟨ib, key, pf, df⟩ := s
  constructor
  · rintro ⟨h1, h2, h3, h4⟩
    simp only at h1 h2 h3 h4
    subst h1; subst h2; subst h3; subst h4
    rfl
  · rintro (h | h | h) <;> simp only at h <;> subst h
    · rfl
    · cases ib with
      | none => rfl
      | some q =>
        cases q with
        | none => rfl
        | some v => rfl
    · cases ib with
      | none =>
        cases pf with
        | none => rfl
        | some q =>
          cases q with
          | none => rfl
          | some v => rfl
      | some q =>
        cases q with
        | none => rfl
        | some v =>
          cases pf with
          | none => rfl
          | some q2 =>
            cases q2 with
            | none => rfl
            | some w => rfl

/-- Witness for C7 at concrete stores: empty storage, and a corrupt
inboxes slot. -/
theorem local_read_never_fails_witness :
    loadFromLocalStorage ({} : LocalStorage String)
      = { inboxes := [], preferences := some emptyPrefs, drafts := some [] } ∧
    loadFromLocalStorage ({ inboxesStr := some none } : LocalStorage String)
      = zeroConfig String :=
  ⟨(local_read_never_fails {}).1 ⟨rfl, rfl, rfl, rfl⟩,
   (local_read_never_fails { inboxesStr := some none }).2 (Or.inl rfl)⟩

/-! ### C10 — delete is idempotent, missing file counts as success -/

/-- C10: with server storage enabled and I/O healthy, delete succeeds both
when it removes the stored file and when no file exists, so two consecutive
deletes both return true; it returns false when server storage is disabled
or when removal fails with an error other than a missing file. -/
theorem delete_config_idempotent {V : Type} (s sBad : ServerStore V)
    (hio : s.ioOk = true) (hbad : sBad.ioOk = false) :
    (deleteConfig true s).1 = true ∧
    (deleteConfig true (deleteConfig true s).2).1 = true ∧
    (deleteConfig true s).2.file = none ∧
    (∀ t : ServerStore V, (deleteConfig false t).1 = false) ∧
    (deleteConfig true sBad).1 = false := by
  obtain ⟨file, io⟩ := s
  obtain ⟨fileB, ioB⟩ := sBad
  simp only at hio hbad
  subst hio
  subst hbad
  refine ⟨?_, ?_, ?_, ?_, ?_⟩
  · cases file <;> rfl
  · cases file <;> rfl
  · cases file <;> rfl
  · intro t; rfl
  · cases fileB <;> rfl

/-- Witness for C10: a store holding a document with healthy I/O, and a
store whose I/O fails. -/
theorem delete_config_idempotent_witness :
    (deleteConfig true (⟨some {}, true⟩ : ServerStore String)).1 = true ∧
    (deleteConfig true (deleteConfig true
        (⟨some {}, true⟩ : ServerStore String)).2).1 = true ∧
    (deleteConfig true (⟨some {}, true⟩ : ServerStore String)).2.file = none ∧
    (∀ t : ServerStore String, (deleteConfig false t).1 = false) ∧
    (deleteConfig true (⟨some {}, false⟩ : ServerStore String)).1 = false :=
  delete_config_idempotent ⟨some {}, true⟩ ⟨some {}, false⟩ rfl rfl

/-! ### C9 — slug uniqueness -/

theorem natDigitsAux_fuel_eq :
    ∀ (n f1 f2 : Nat), n < f1 → n < f2 →
      natDigitsAux f1 n = natDigitsAux f2 n := by
  intro n
  induction n using Nat.strong_induction_on with
  | _ n ih =>
    intro f1 f2 h1 h2
    cases f1 with
    | zero => omega
    | succ g1 =>
      cases f2 with
      | zero => omega
      | succ g2 =>
        simp only [natDigitsAux]
        by_cases hn : n < 10
        · simp [hn]
        · simp only [if_neg hn]
          have hd : n / 10 < n := Nat.div_lt_self (by omega) (by omega)
          rw [ih (n / 10) hd g1 g2 (by omega) (by omega)]

theorem natDigitsAux_canonical (n : Nat) :
    natDigitsAux (n + 1) n =
      if n < 10 then [digitChar n]
      else natDigitsAux (n / 10 + 1) (n / 10) ++ [digitChar (n % 10)] := by
  show (if n < 10 then [digitChar n]
        else natDigitsAux n (n / 10) ++ [digitChar (n % 10)]) = _
  by_cases hn : n < 10
  · rw [if_pos hn, if_pos hn]
  · rw [if_neg hn, if_neg hn]
    have hd : n / 10 < n := Nat.div_lt_self (by omega) (by omega)
    rw [natDigitsAux_fuel_eq (n / 10) n (n / 10 + 1) (by omega) (by omega)]

theorem natDigitsAux_ne_nil (n : Nat) : natDigitsAux (n + 1) n ≠ [] := by
  rw [natDigitsAux_canonical]
  by_cases hn : n < 10 <;> simp [hn]

theorem digitChar_inj :
    ∀ a, a < 10 → ∀ b, b < 10 → digitChar a = digitChar b → a = b := by decide

theorem natToStr_digits_inj :
    ∀ m n : Nat, natDigitsAux (m + 1) m = natDigitsAux (n + 1) n → m = n := by
  intro m
  induction m using Nat.strong_induction_on with
  | _ m ih =>
    intro n h
    rw [natDigitsAux_canonical m, natDigitsAux_canonical n] at h
    by_cases hm : m < 10 <;> by_cases hn : n < 10
    · rw [if_pos hm, if_pos hn] at h
      exact digitChar_inj m hm n hn (by simpa using h)
    · rw [if_pos hm, if_neg hn] at h
      cases hA : natDigitsAux (n / 10 + 1) (n / 10) with
      | nil => exact absurd hA (natDigitsAux_ne_nil _)
      | cons x xs =>
        rw [hA] at h
        simp at h
    · rw [if_neg hm, if_pos hn] at h
      cases hA : natDigitsAux (m / 10 + 1) (m / 10) with
      | nil => exact absurd hA (natDigitsAux_ne_nil _)
      | cons x xs =>
        rw [hA] at h
        simp at h
    · rw [if_neg hm, if_neg hn] at h
      obtain ⟨hA, hab⟩ := List.append_inj' h rfl
      have hmod : m % 10 = n % 10 :=
        digitChar_inj _ (Nat.mod_lt _ (by omega)) _ (Nat.mod_lt _ (by omega))
          (by simpa using hab)
      have hdiv : m / 10 = n / 10 :=
        ih (m / 10) (Nat.div_lt_self (by omega) (by omega)) (n / 10) hA
      omega

theorem string_data_append (a b : String) : (a ++ b).data = a.data ++ b.data := rfl

theorem slugCand_inj (base : String) (k k' : Nat)
    (h : slugCand base k = slugCand base k') : k = k' := by
  have hd := congrArg String.data h
  simp only [slugCand, string_data_append] at hd
  have h2 : (natToStr k).data = (natToStr k').data :=
    List.append_cancel_left hd
  exact natToStr_digits_inj k k' h2

theorem slugCand_ne_base (base : String) (k : Nat) : slugCand base k ≠ base := by
  intro h
  have hd := congrArg (fun s => s.data.length) h
  simp only [slugCand, string_data_append, List.length_append] at hd
  have hk : (natToStr k).data.length ≠ 0 := by
    intro h0
    exact natDigitsAux_ne_nil k (List.length_eq_zero.mp h0)
  have hdash : ("-" : String).data.length = 1 := rfl
  omega

theorem slugLoop_avoids (existing : List AgentInbox) (cur : Option String)
    (base : String) :
    ∀ fuel slug counter,
      (∃ j, j < fuel ∧ slugTaken existing cur (slugCandAt base slug counter j) = false) →
      slugTaken existing cur (slugLoop existing cur base fuel slug counter) = false := by
  intro fuel
  induction fuel with
  | zero =>
    rintro slug counter ⟨j, hj, _⟩
    omega
  | succ f ih =>
    rintro slug counter ⟨j, hj, hgood⟩
    by_cases htaken : slugTaken existing cur slug
    · simp only [slugLoop, if_pos htaken]
      apply ih
      cases j with
      | zero =>
        rw [show slugCandAt base slug counter 0 = slug from rfl, htaken] at hgood
        cases hgood
      | succ j' =>
        refine ⟨j', by omega, ?_⟩
        have hshift : slugCandAt base (base ++ "-" ++ natToStr counter) (counter + 1) j'
            = slugCandAt base slug counter (j' + 1) := by
          cases j' with
          | zero => rfl
          | succ jj =>
            show slugCand base (counter + 1 + jj) = slugCand base (counter + (jj + 1))
            have harith : counter + 1 + jj = counter + (jj + 1) := by omega
            rw [harith]
        rw [hshift]
        exact hgood
    · simp only [slugLoop, if_neg htaken]
      simpa using htaken

theorem exists_free_candidate (existing : List AgentInbox) (cur : Option String)
    (base : String) :
    ∃ j, j < existing.length + 1 ∧
      slugTaken existing cur (slugCandAt base base 2 j) = false := by
  by_contra hall
  push_neg at hall
  have hall' : ∀ j, j < existing.length + 1 →
      slugTaken existing cur (slugCandAt base base 2 j) = true := by
    intro j hj
    cases hb : slugTaken existing cur (slugCandAt base base 2 j) with
    | false => exact absurd hb (hall j hj)
    | true => rfl
  have hmem : ∀ s : String, slugTaken existing cur s = true →
      s ∈ existing.filterMap (fun i => if some i.id ≠ cur then i.slug else none) := by
    intro s hs
    simp only [slugTaken, List.any_eq_true] at hs
    obtain ⟨i, hi, hcond⟩ := hs
    simp only [Bool.and_eq_true, beq_iff_eq, bne_iff_ne] at hcond
    simp only [List.mem_filterMap]
    exact ⟨i, hi, by rw [if_pos hcond.2]; exact hcond.1⟩
  have hinj : Set.InjOn (fun j => slugCandAt base base 2 j)
      (Finset.range (existing.length + 1)) := by
    intro a _ b _ hab
    match a, b with
    | 0, 0 => rfl
    | 0, b' + 1 => exact absurd hab.symm (slugCand_ne_base base (2 + b'))
    | a' + 1, 0 => exact absurd hab (slugCand_ne_base base (2 + a'))
    | a' + 1, b' + 1 =>
      have := slugCand_inj base (2 + a') (2 + b') hab
      omega
  have hsub : (Finset.range (existing.length + 1)).image
        (fun j => slugCandAt base base 2 j)
      ⊆ (existing.filterMap (fun i => if some i.id ≠ cur then i.slug else none)).toFinset := by
    intro s hs
    simp only [Finset.mem_image] at hs
    obtain ⟨j, hj, rfl⟩ := hs
    exact List.mem_toFinset.mpr (hmem _ (hall' j (Finset.mem_range.mp hj)))
  have hcard := Finset.card_le_card hsub
  rw [Finset.card_image_of_injOn hinj, Finset.card_range] at hcard
  have h1 := List.toFinset_card_le
    (existing.filterMap (fun i => if some i.id ≠ cur then i.slug else none))
  have h2 := List.length_filterMap_le
    (fun i => if some i.id ≠ cur then i.slug else none) existing
  omega

/-- C9 amended: the doc examples hold — two inboxes named "My Inbox" get
slugs `my-inbox` and `my-inbox-2` — and for every display name whose
generated base slug is nonempty, the chosen slug differs from the slug of
every existing inbox other than the one being renamed.  (When the base
slug is empty the source falls back to `inbox-` plus a random string with
no collision check, so uniqueness is not guaranteed there.) -/
theorem slug_uniqueness_amended :
    (generateSlug "My Inbox" = "my-inbox" ∧
     getUniqueSlug "My Inbox" [] none "r" = "my-inbox" ∧
     getUniqueSlug "My Inbox"
       [{ id := "A", name := "My Inbox", slug := some "my-inbox" }] none "r"
       = "my-inbox-2") ∧
    ∀ (name : String) (existing : List AgentInbox) (cur : Option String)
      (rand : String), generateSlug name ≠ "" →
      ∀ i ∈ existing, some i.id ≠ cur →
        i.slug ≠ some (getUniqueSlug name existing cur rand) := by
  constructor
  · exact ⟨by decide, by decide, by decide⟩
  · intro name existing cur rand hbase i hi hid hslug
    have hloop : getUniqueSlug name existing cur rand
        = slugLoop existing cur (generateSlug name) (existing.length + 1)
            (generateSlug name) 2 := by
      simp [getUniqueSlug, hbase]
    obtain ⟨j, hj, hfree⟩ :=
      exists_free_candidate existing cur (generateSlug name)
    have havoid := slugLoop_avoids existing cur (generateSlug name)
      (existing.length + 1) (generateSlug name) 2 ⟨j, hj, hfree⟩
    rw [hloop] at hslug
    have htaken : slugTaken existing cur
        (slugLoop existing cur (generateSlug name) (existing.length + 1)
          (generateSlug name) 2) = true := by
      simp only [slugTaken, List.any_eq_true]
      exact ⟨i, hi, by simp [hslug, hid]⟩
    rw [havoid] at htaken
    cases htaken

/-- Witness for C9: the renamed-duplicate scenario — the second "My Inbox"
does not receive the slug of the existing one. -/
theorem slug_uniqueness_amended_witness :
    ({ id := "A", name := "My Inbox", slug := some "my-inbox" } : AgentInbox).slug
      ≠ some (getUniqueSlug "My Inbox"
          [{ id := "A", name := "My Inbox", slug := some "my-inbox" }] none "r") :=
  slug_uniqueness_amended.2 "My Inbox"
    [{ id := "A", name := "My Inbox", slug := some "my-inbox" }] none "r"
    (by decide)
    { id := "A", name := "My Inbox", slug := some "my-inbox" }
    (List.mem_singleton.mpr rfl) (by decide)

/-- C9 counterexample: for a name whose base slug is empty (`"!!!"`), the
random fallback is returned without a collision check, so the chosen slug
can equal the slug of an existing inbox that is not the one being
renamed. -/
theorem slug_uniqueness_counterexample :
    getUniqueSlug "!!!" [{ id := "A", slug := some "inbox-abc123" }] none "abc123"
      = "inbox-abc123" ∧
    ({ id := "A", slug := some "inbox-abc123" } : AgentInbox).slug
      = some "inbox-abc123" ∧
    (some "A" : Option String) ≠ none :=
  ⟨by decide, rfl, by decide⟩
